import Mathlib

/-!
Verification of the task-level MCP tool manager
(`tradingagents/tools/mcp/task_manager.py`).

The Python module is shallowly embedded as pure Lean functions:

* wall-clock readings (`time.time()`) become explicit rational parameters
  passed to each operation;
* the mutable manager object becomes an explicit `ManagerState` record that
  every operation takes and returns;
* Python exceptions raised by the wrapped tool function become `Except`
  values: the wrapped async callable is modelled as a map from the attempt
  number (1-indexed) to the outcome of that attempt;
* `asyncio` locks are identity in the sequential embedding (they only
  guarantee mutual exclusion); `asyncio.Semaphore` is modelled by its permit
  counter, and separately by a small-step transition system for the
  concurrency claim;
* Python dictionaries keyed by strings become association lists preserving
  insertion order (matching CPython's ordered dicts), and the `set` of
  failed tools becomes a duplicate-free list in insertion order.
-/

set_option maxRecDepth 4000

mutual

/-- Python values, as far as the resilience core inspects or constructs
them: the wrapped function's return value is opaque data, and the manager
itself only ever builds flat string-keyed dictionaries. -/
inductive PyValue where
  | str : String → PyValue
  | int : Int → PyValue
  | rat : Rat → PyValue
  | bool : Bool → PyValue
  | pynone : PyValue
  | dict : PyDict → PyValue
deriving DecidableEq

/-- A Python dictionary with string keys, in insertion order. -/
inductive PyDict where
  | nil : PyDict
  | cons : String → PyValue → PyDict → PyDict
deriving DecidableEq

end

/-- Build a dictionary literal from a list of entries. -/
def PyDict.ofList : List (String × PyValue) → PyDict
  | [] => .nil
  | (k, v) :: rest => .cons k v (PyDict.ofList rest)

/-- Whether a Python value is a dictionary (`isinstance(x, dict)`). -/
def PyValue.isDict : PyValue → Bool
  | .dict _ => true
  | _ => false

/-- The Python exception classes that appear in the module: the four
retryable classes named in `RetryMechanism.RETRYABLE_EXCEPTIONS`
(`asyncio.TimeoutError` is `TimeoutError` on current CPython) together with
common non-retryable classes and the `TypeError` raised by `raise None`. -/
inductive ExcType where
  | connectionError
  | timeoutError
  | osError
  | valueError
  | keyError
  | typeError
  | runtimeError
  | genericException
deriving DecidableEq

/-- The `__name__` of the exception class, used for the `error_type`
field of the error result. -/
def ExcType.pyName : ExcType → String
  | .connectionError => "ConnectionError"
  | .timeoutError => "TimeoutError"
  | .osError => "OSError"
  | .valueError => "ValueError"
  | .keyError => "KeyError"
  | .typeError => "TypeError"
  | .runtimeError => "RuntimeError"
  | .genericException => "Exception"

/-- Whether `isinstance(e, t)` holds for some `t` in
`RETRYABLE_EXCEPTIONS = (ConnectionError, TimeoutError, asyncio.TimeoutError,
OSError)`; on CPython `ConnectionError` and `TimeoutError` are subclasses of
`OSError`, so exactly these three classes match. -/
def ExcType.isRetryableType : ExcType → Bool
  | .connectionError => true
  | .timeoutError => true
  | .osError => true
  | _ => false

/-- A Python exception instance: its class and its message (`str(e)`). -/
structure Exc where
  type : ExcType
  message : String
deriving DecidableEq

/-- The `TypeError` CPython raises for `raise None` (reached by
`execute_with_retry` when `max_attempts < 1` leaves `last_exception = None`). -/
def noneRaisedExc : Exc :=
  { type := .typeError, message := "exceptions must derive from BaseException" }

/-- Substring test on character lists (Python's `kw in msg`). -/
def listContainsSub (needle : List Char) : List Char → Bool
  | [] => needle.isEmpty
  | c :: rest => needle.isPrefixOf (c :: rest) || listContainsSub needle rest

/-- Python `sub in s` for strings. -/
def strContains (s sub : String) : Bool :=
  listContainsSub sub.toList s.toList

/-- Python `s.lower()`; the module's keyword list and messages are matched
in the ASCII range, where `Char.toLower` agrees with `str.lower`. -/
def pyLower (s : String) : String :=
  String.mk (s.toList.map Char.toLower)

/-- The `retryable_keywords` list of `RetryMechanism.is_retryable`. -/
def retryableKeywords : List String :=
  ["timeout", "timed out",
   "connection", "connect",
   "network", "network unreachable",
   "temporary", "temporarily",
   "rate limit", "too many requests",
   "503", "502", "504"]

/-- Circuit-breaker state (`CircuitState`): the Python member `OPEN` is
spelled `opened` because `open` is a Lean keyword. -/
inductive CircuitState where
  | closed
  | opened
  | halfOpen
deriving DecidableEq

/-- The `.value` string of the enum member. -/
def CircuitState.value : CircuitState → String
  | .closed => "closed"
  | .opened => "open"
  | .halfOpen => "half_open"

/-- Dataclass `CircuitBreakerConfig`; durations are exact rationals. -/
structure CircuitBreakerConfig where
  failure_threshold : Nat := 3
  success_threshold : Nat := 2
  timeout : Rat := 60
  window_size : Nat := 10
deriving DecidableEq

/-- Dataclass `RetryConfig`; the float fields are exact rationals (the
defaults 1.0, 10.0, 2.0 are exactly representable). -/
structure RetryConfig where
  max_attempts : Nat := 3
  base_delay : Rat := 1
  max_delay : Rat := 10
  exponential_base : Rat := 2
deriving DecidableEq

/-- Dataclass `ToolState`. -/
structure ToolState where
  failure_count : Nat := 0
  last_failure_time : Rat := 0
  last_success_time : Rat := 0
  circuit_state : CircuitState := .closed
  total_calls : Nat := 0
  total_failures : Nat := 0
deriving DecidableEq

/-- The mutable fields of class `CircuitBreaker`; `last_state_change` holds
the `time.time()` reading at the last state change. -/
structure CircuitBreaker where
  config : CircuitBreakerConfig
  state : CircuitState := .closed
  failure_count : Nat := 0
  success_count : Nat := 0
  last_state_change : Rat
deriving DecidableEq

/-- Constructor `CircuitBreaker.__init__`, reading the clock `now`. -/
def CircuitBreaker.init (config : CircuitBreakerConfig) (now : Rat) : CircuitBreaker :=
  { config := config, state := .closed, failure_count := 0, success_count := 0,
    last_state_change := now }

/-- Method `CircuitBreaker._can_attempt`, which both answers whether an
attempt may proceed and performs the OPEN → HALF_OPEN transition once the
timeout has elapsed. -/
def CircuitBreaker.canAttempt (cb : CircuitBreaker) (now : Rat) : Bool × CircuitBreaker :=
  match cb.state with
  | .closed => (true, cb)
  | .opened =>
      if cb.config.timeout ≤ now - cb.last_state_change then
        (true, { cb with state := .halfOpen, last_state_change := now, success_count := 0 })
      else
        (false, cb)
  | .halfOpen => (true, cb)

/-- Method `CircuitBreaker.acquire`: `_can_attempt` under the breaker's
lock (the lock is identity in the sequential embedding). -/
def CircuitBreaker.acquire (cb : CircuitBreaker) (now : Rat) : Bool × CircuitBreaker :=
  cb.canAttempt now

/-- Method `CircuitBreaker.record_success`. -/
def CircuitBreaker.recordSuccess (cb : CircuitBreaker) (now : Rat) : CircuitBreaker :=
  let cb1 :=
    match cb.state with
    | .halfOpen =>
        let sc := cb.success_count + 1
        if cb.config.success_threshold ≤ sc then
          { cb with success_count := sc, state := .closed, failure_count := 0 }
        else
          { cb with success_count := sc }
    | .closed => { cb with failure_count := 0 }
    | .opened => cb
  { cb1 with last_state_change := now }

/-- Method `CircuitBreaker.record_failure`. -/
def CircuitBreaker.recordFailure (cb : CircuitBreaker) (now : Rat) : CircuitBreaker :=
  let fc := cb.failure_count + 1
  match cb.state with
  | .halfOpen =>
      { cb with failure_count := fc, state := .opened, last_state_change := now,
                success_count := 0 }
  | s =>
      if cb.config.failure_threshold ≤ fc then
        { cb with state := .opened, failure_count := fc, last_state_change := now }
      else
        { cb with state := s, failure_count := fc }

/-- Method `RetryMechanism.is_retryable`: an isinstance check against the
retryable classes, then a lower-cased keyword scan of the message. -/
def is_retryable (e : Exc) : Bool :=
  e.type.isRetryableType ||
  retryableKeywords.any (fun kw => strContains (pyLower e.message) kw)

/-- Method `RetryMechanism.calculate_delay`: exponential backoff capped at
`max_delay`, with 1-indexed attempts. -/
def calculate_delay (cfg : RetryConfig) (attempt : Nat) : Rat :=
  min (cfg.base_delay * cfg.exponential_base ^ (attempt - 1)) cfg.max_delay

/-- Outcome of `RetryMechanism.execute_with_retry`: the awaited value, the
last exception re-raised after the loop, or the degenerate `raise None`
when the loop body never ran (`max_attempts < 1`). -/
inductive RetryResult where
  | ok : PyValue → RetryResult
  | failed : Exc → RetryResult
  | noAttempt : RetryResult
deriving DecidableEq

/-- What `execute_with_retry` makes its caller observe: a returned value or
a raised exception (`raise None` raises `TypeError`). -/
def RetryResult.toExcept : RetryResult → Except Exc PyValue
  | .ok v => .ok v
  | .failed e => .error e
  | .noAttempt => .error noneRaisedExc

/-- The retry loop of `RetryMechanism.execute_with_retry`, recursing over
the remaining attempts (`fuel`); `attempt` is the 1-indexed counter of the
Python `for` loop. Returns the outcome, the number of attempts actually
made, and the list of backoff delays slept between attempts. -/
def retryFrom (cfg : RetryConfig) (f : Nat → Except Exc PyValue) :
    Nat → Nat → RetryResult × Nat × List Rat
  | _, 0 => (.noAttempt, 0, [])
  | attempt, fuel + 1 =>
      match f attempt with
      | .ok v => (.ok v, 1, [])
      | .error e =>
          if fuel = 0 then
            (.failed e, 1, [])
          else if is_retryable e = false then
            (.failed e, 1, [])
          else
            let d := calculate_delay cfg attempt
            let rest := retryFrom cfg f (attempt + 1) fuel
            (rest.1, rest.2.1 + 1, d :: rest.2.2)

/-- Method `RetryMechanism.execute_with_retry` applied to a wrapped
function whose attempt-by-attempt outcomes are given by `f`. -/
def executeWithRetry (cfg : RetryConfig) (f : Nat → Except Exc PyValue) :
    RetryResult × Nat × List Rat :=
  retryFrom cfg f 1 cfg.max_attempts

example : (executeWithRetry {} (fun _ => .ok (.str "v"))).1.toExcept = .ok (.str "v") := rfl

example :
    executeWithRetry {} (fun _ => .error { type := .connectionError, message := "x" }) =
      (.failed { type := .connectionError, message := "x" }, 3, [1, 2]) := by
  with_unfolding_all decide

example :
    executeWithRetry {} (fun _ => .error { type := .valueError, message := "bad" }) =
      (.failed { type := .valueError, message := "bad" }, 1, []) := by decide

example : is_retryable { type := .valueError, message := "Request Timed Out" } = true := by
  decide

/-- Lookup in an insertion-ordered association list (a Python dict). -/
def alistGet {β : Type} : List (String × β) → String → Option β
  | [], _ => none
  | (k1, v1) :: rest, k => if k1 = k then some v1 else alistGet rest k

/-- Update-or-append in an insertion-ordered association list: CPython
dict assignment keeps the position of an existing key and appends a new
one. -/
def alistSet {β : Type} : List (String × β) → String → β → List (String × β)
  | [], k, v => [(k, v)]
  | (k1, v1) :: rest, k, v =>
      if k1 = k then (k, v) :: rest else (k1, v1) :: alistSet rest k v

/-- Python `set.add` on a duplicate-free insertion-ordered list. -/
def setAdd (l : List String) (k : String) : List String :=
  if l.contains k then l else l ++ [k]

/-- The state of one `TaskLevelMCPManager`: its dictionaries, the
disabled-tool set, and its configuration. Locks are dropped (they are
identity in the sequential embedding) and each server's semaphore is
modelled by its current number of available permits. -/
structure ManagerState where
  task_id : String
  tool_states : List (String × ToolState) := []
  circuit_breakers : List (String × CircuitBreaker) := []
  server_semaphores : List (String × Nat) := []
  failed_tools : List String := []
  retry_config : RetryConfig := {}
  circuit_config : CircuitBreakerConfig := {}
  default_server_concurrency : Nat := 5
deriving DecidableEq

/-- Constructor `TaskLevelMCPManager.__init__`. -/
def initManager (task_id : String) : ManagerState :=
  { task_id := task_id }

/-- Method `_get_tool_key`; Python's `if server_name:` treats the empty
string like `None`. -/
def getToolKey (tool_name : String) (server_name : Option String) : String :=
  match server_name with
  | some s => if s = "" then tool_name else s ++ ":" ++ tool_name
  | none => tool_name

/-- Python truthiness of the optional server name, as used by the
semaphore branch of `execute_tool`. -/
def truthyServer : Option String → Option String
  | some s => if s = "" then none else some s
  | none => none

/-- Method `_get_tool_state`: get-or-create, returning the state found
or created together with the updated manager. -/
def getToolState (m : ManagerState) (key : String) : ToolState × ManagerState :=
  match alistGet m.tool_states key with
  | some ts => (ts, m)
  | none =>
      let ts : ToolState := {}
      (ts, { m with tool_states := alistSet m.tool_states key ts })

/-- Method `_get_circuit_breaker`: get-or-create; a fresh breaker records
the current clock in `last_state_change` (its `__init__` calls
`time.time()`). -/
def getCircuitBreaker (m : ManagerState) (key : String) (now : Rat) :
    CircuitBreaker × ManagerState :=
  match alistGet m.circuit_breakers key with
  | some cb => (cb, m)
  | none =>
      let cb := CircuitBreaker.init m.circuit_config now
      (cb, { m with circuit_breakers := alistSet m.circuit_breakers key cb })

/-- Write a tool state back into the manager's dictionary (in Python the
`ToolState` object is mutated through the alias held by the dict). -/
def setToolState (m : ManagerState) (key : String) (ts : ToolState) : ManagerState :=
  { m with tool_states := alistSet m.tool_states key ts }

/-- Write a circuit breaker back into the manager's dictionary. -/
def setBreaker (m : ManagerState) (key : String) (cb : CircuitBreaker) : ManagerState :=
  { m with circuit_breakers := alistSet m.circuit_breakers key cb }

/-- Method `_get_server_semaphore` followed by `semaphore.acquire()`: the
semaphore is created lazily with `default_server_concurrency` permits, and
acquiring takes one permit (in the sequential embedding the caller never
suspends). -/
def semAcquire (m : ManagerState) : Option String → ManagerState
  | none => m
  | some s =>
      let cur := (alistGet m.server_semaphores s).getD m.default_server_concurrency
      { m with server_semaphores := alistSet m.server_semaphores s (cur - 1) }

/-- The `finally` block's `semaphore.release()`. -/
def semRelease (m : ManagerState) : Option String → ManagerState
  | none => m
  | some s =>
      let cur := (alistGet m.server_semaphores s).getD m.default_server_concurrency
      { m with server_semaphores := alistSet m.server_semaphores s (cur + 1) }

/-- Method `is_tool_available`: a fast rejection for disabled tools,
otherwise the circuit breaker's `acquire` (which may itself move the
breaker OPEN → HALF_OPEN). -/
def isToolAvailable (m : ManagerState) (tool_name : String)
    (server_name : Option String) (now : Rat) : Bool × ManagerState :=
  let key := getToolKey tool_name server_name
  if m.failed_tools.contains key then
    (false, m)
  else
    let r := getCircuitBreaker m key now
    let a := r.1.acquire now
    (a.1, setBreaker r.2 key a.2)

/-- The dictionary `execute_tool` returns for a disabled tool. -/
def disabledResult (tool_name : String) : PyValue :=
  .dict (.ofList
    [("status", .str "disabled"),
     ("message", .str ("工具 " ++ tool_name ++ " 在当前任务中已禁用（连续失败或断路器打开）")),
     ("tool_name", .str tool_name)])

/-- The dictionary `execute_tool` returns when the invocation failed. -/
def errorResult (tool_name : String) (e : Exc) : PyValue :=
  .dict (.ofList
    [("status", .str "error"),
     ("message", .str ("工具调用失败: " ++ e.message)),
     ("tool_name", .str tool_name),
     ("error_type", .str e.type.pyName)])

/-- Method `TaskLevelMCPManager.execute_tool`. `tStart` is the clock when
the call enters (availability check and breaker creation) and `tEnd` the
clock when the outcome is recorded; the wrapped function's behaviour is
`f`, giving the outcome of each 1-indexed attempt of the retry loop. The
retry configuration is read from the entry state `m0`: no step of the call
before the `execute_with_retry` invocation touches `_retry_mechanism`, so
this is the configuration the Python call reads from `self` at that
point. -/
def executeTool (m0 : ManagerState) (tool_name : String)
    (f : Nat → Except Exc PyValue) (server_name : Option String)
    (tStart tEnd : Rat) : PyValue × ManagerState :=
  let key := getToolKey tool_name server_name
  let av := isToolAvailable m0 tool_name server_name tStart
  if av.1 = false then
    (disabledResult tool_name, av.2)
  else
    let m1 := av.2
    let cb := (getCircuitBreaker m1 key tStart).1
    let m2 := (getCircuitBreaker m1 key tStart).2
    let ts0 := (getToolState m2 key).1
    let m3 := (getToolState m2 key).2
    let sname := truthyServer server_name
    let m4 := semAcquire m3 sname
    let ts1 := { ts0 with total_calls := ts0.total_calls + 1 }
    let m5 := setToolState m4 key ts1
    match ((executeWithRetry m0.retry_config f).1).toExcept with
    | .ok v =>
        let cb2 := cb.recordSuccess tEnd
        let ts2 := { ts1 with last_success_time := tEnd, failure_count := 0 }
        let m6 := setBreaker (setToolState m5 key ts2) key cb2
        (v, semRelease m6 sname)
    | .error e =>
        let cb2 := cb.recordFailure tEnd
        let ts2 := { ts1 with failure_count := ts1.failure_count + 1,
                              last_failure_time := tEnd,
                              total_failures := ts1.total_failures + 1 }
        let m6 := setBreaker (setToolState m5 key ts2) key cb2
        let m7 :=
          if m6.circuit_config.failure_threshold ≤ ts2.failure_count then
            { m6 with failed_tools := setAdd m6.failed_tools key }
          else m6
        (errorResult tool_name e, semRelease m7 sname)

/-- Method `get_tool_statistics`: builds the statistics dictionary, and
(through `_get_tool_state` / `_get_circuit_breaker`) creates missing
entries for the queried key. -/
def getToolStatistics (m : ManagerState) (tool_name : String)
    (server_name : Option String) (now : Rat) : PyValue × ManagerState :=
  let key := getToolKey tool_name server_name
  let ts := (getToolState m key).1
  let m1 := (getToolState m key).2
  let cb := (getCircuitBreaker m1 key now).1
  let m2 := (getCircuitBreaker m1 key now).2
  (.dict (.ofList
    [("tool_name", .str tool_name),
     ("server_name", match server_name with | some s => .str s | none => .pynone),
     ("total_calls", .int ts.total_calls),
     ("total_failures", .int ts.total_failures),
     ("failure_count", .int ts.failure_count),
     ("circuit_state", .str cb.state.value),
     ("is_disabled", .bool (m2.failed_tools.contains key)),
     ("last_success_time", .rat ts.last_success_time),
     ("last_failure_time", .rat ts.last_failure_time)]), m2)

/-- The serializable image of one `ToolState` as `to_dict` exports it
(the `circuit_state` field of the dataclass is not exported). -/
structure SerializedToolState where
  failure_count : Nat
  last_failure_time : Rat
  last_success_time : Rat
  total_calls : Nat
  total_failures : Nat
deriving DecidableEq

/-- The nested mapping produced by `to_dict`, as a record: every key is
always present in the output of `to_dict`. -/
structure SerializedState where
  task_id : String
  default_server_concurrency : Nat
  circuit_breaker_config : CircuitBreakerConfig
  retry_config : RetryConfig
  tool_states : List (String × SerializedToolState)
  failed_tools : List String
deriving DecidableEq

/-- The per-tool part of `to_dict`. -/
def serOfToolState (st : ToolState) : SerializedToolState :=
  { failure_count := st.failure_count,
    last_failure_time := st.last_failure_time,
    last_success_time := st.last_success_time,
    total_calls := st.total_calls,
    total_failures := st.total_failures }

/-- The `ToolState(...)` reconstruction done by `from_dict`; the dataclass
fields it does not pass (only `circuit_state`) take their defaults. -/
def toolStateOfSer (s : SerializedToolState) : ToolState :=
  { failure_count := s.failure_count,
    last_failure_time := s.last_failure_time,
    last_success_time := s.last_success_time,
    circuit_state := .closed,
    total_calls := s.total_calls,
    total_failures := s.total_failures }

/-- Method `to_dict`: configuration and counters only; locks, semaphores
and circuit-breaker runtime state are not exported. -/
def toDict (m : ManagerState) : SerializedState :=
  { task_id := m.task_id,
    default_server_concurrency := m.default_server_concurrency,
    circuit_breaker_config := m.circuit_config,
    retry_config := m.retry_config,
    tool_states := m.tool_states.map (fun p => (p.1, serOfToolState p.2)),
    failed_tools := m.failed_tools }

/-- Classmethod `from_dict`: builds a fresh manager via the constructor and
then restores configuration, tool-state counters and the failed-tool set;
breakers, semaphores and locks start empty/fresh. -/
def fromDict (d : SerializedState) : ManagerState :=
  let m := initManager d.task_id
  { m with
    circuit_config := d.circuit_breaker_config,
    retry_config := d.retry_config,
    default_server_concurrency := d.default_server_concurrency,
    tool_states := d.tool_states.map (fun p => (p.1, toolStateOfSer p.2)),
    failed_tools := d.failed_tools }

/-- The process-wide registry `_task_managers`. -/
def Registry : Type := List (String × ManagerState)

/-- Function `get_task_mcp_manager`: get-or-create a task's manager. -/
def getTaskMcpManager (r : Registry) (task_id : String) : ManagerState × Registry :=
  match alistGet r task_id with
  | some m => (m, r)
  | none =>
      let m := initManager task_id
      (m, alistSet r task_id m)

/-- Store a task's manager back into the registry (in Python the manager
object in `_task_managers` is mutated in place through the alias). -/
def registrySet (r : Registry) (task_id : String) (m : ManagerState) : Registry :=
  alistSet r task_id m

example :
    (executeTool (initManager "t1") "news" (fun _ => .ok (.str "ok")) none 0 0).1 =
      .str "ok" := rfl

example :
    (executeTool (initManager "t1") "news"
        (fun _ => .error { type := .valueError, message := "bad" }) (some "srv") 0 0).1 =
      errorResult "news" { type := .valueError, message := "bad" } := rfl

/-- C3 counterexample: a breaker that entered OPEN at time 0 with the
default 60-second timeout, probed at time 60. The first `acquire` moves it
to HALF_OPEN and allows the attempt, but a second `acquire` before any
outcome is recorded is allowed as well: the code does not restrict the
HALF_OPEN window to exactly one probing attempt. -/
theorem C3_multiple_probes_counterexample :
    (CircuitBreaker.acquire
        { config := {}, state := .opened, failure_count := 3, success_count := 0,
          last_state_change := 0 } 60).1 = true ∧
    ((CircuitBreaker.acquire
        { config := {}, state := .opened, failure_count := 3, success_count := 0,
          last_state_change := 0 } 60).2).state = .halfOpen ∧
    (CircuitBreaker.acquire
        ((CircuitBreaker.acquire
          { config := {}, state := .opened, failure_count := 3, success_count := 0,
            last_state_change := 0 } 60).2) 60).1 = true ∧
    ((CircuitBreaker.acquire
        ((CircuitBreaker.acquire
          { config := {}, state := .opened, failure_count := 3, success_count := 0,
            last_state_change := 0 } 60).2) 60).2).state = .halfOpen := by
  refine ⟨?_, ?_, ?_, ?_⟩ <;>
    norm_num [CircuitBreaker.acquire, CircuitBreaker.canAttempt]

/-- C3 (amended): once `timeout` has elapsed since the breaker entered
OPEN, the next `acquire` transitions it to HALF_OPEN with the half-open
success counter reset and allows the attempt (and every further `acquire`
while HALF_OPEN allows an attempt too — probing is not limited to one
attempt); while HALF_OPEN a recorded success closes the circuit exactly
when the consecutive half-open success count reaches `success_threshold`,
and any single recorded failure reopens the breaker immediately, resetting
the success counter. -/
theorem C3_half_open_probe_behavior
    (cb cb2 : CircuitBreaker) (now now2 : Rat)
    (h1 : cb.state = .opened)
    (h2 : cb.config.timeout ≤ now - cb.last_state_change)
    (h3 : cb2.state = .halfOpen) :
    cb.acquire now =
      (true, { cb with state := .halfOpen, last_state_change := now, success_count := 0 }) ∧
    (cb2.acquire now2).1 = true ∧
    (cb2.recordSuccess now2).state =
      (if cb2.config.success_threshold ≤ cb2.success_count + 1 then .closed else .halfOpen) ∧
    (cb2.recordSuccess now2).success_count = cb2.success_count + 1 ∧
    cb2.recordFailure now2 =
      { cb2 with failure_count := cb2.failure_count + 1, state := .opened,
                 last_state_change := now2, success_count := 0 } := by
  refine ⟨?_, ?_, ?_, ?_, ?_⟩
  · simp [CircuitBreaker.acquire, CircuitBreaker.canAttempt, h1, h2]
  · simp [CircuitBreaker.acquire, CircuitBreaker.canAttempt, h3]
  · simp only [CircuitBreaker.recordSuccess, h3]
    split <;> simp
  · simp only [CircuitBreaker.recordSuccess, h3]
    split <;> simp
  · simp [CircuitBreaker.recordFailure, h3]

/-- C3 witness: the amended claim applied to two concrete breakers, one
OPEN since time 0 queried at time 60, one HALF_OPEN with one success
already recorded under the default threshold of 2. -/
theorem C3_half_open_probe_behavior_witness :
    (CircuitBreaker.acquire
      { config := {}, state := .opened, failure_count := 3, success_count := 0,
        last_state_change := 0 } 60).1 = true ∧
    (CircuitBreaker.recordSuccess
      { config := {}, state := .halfOpen, failure_count := 3, success_count := 1,
        last_state_change := 60 } 61).state = .closed := by
  have h := C3_half_open_probe_behavior
    { config := {}, state := .opened, failure_count := 3, success_count := 0,
      last_state_change := 0 }
    { config := {}, state := .halfOpen, failure_count := 3, success_count := 1,
      last_state_change := 60 }
    60 61 rfl (by norm_num) rfl
  refine ⟨?_, ?_⟩
  · rw [h.1]
  · rw [h.2.2.1]
    norm_num

/-- C4 (confirmed): a CLOSED breaker moves to OPEN exactly at the recorded
failure that makes the consecutive-failure count reach
`failure_threshold`; a recorded success while CLOSED resets the count to 0
and keeps the breaker CLOSED; the opening failure stamps
`last_state_change` with its time, and while OPEN any `acquire` strictly
before `timeout` has elapsed since that stamp is rejected and leaves the
breaker unchanged. -/
theorem C4_open_at_threshold_and_reject_until_timeout
    (cb cbO : CircuitBreaker) (t0 now : Rat)
    (h1 : cb.state = .closed)
    (hO : cbO.state = .opened)
    (hT : now - cbO.last_state_change < cbO.config.timeout) :
    (cb.recordFailure t0).state =
      (if cb.config.failure_threshold ≤ cb.failure_count + 1 then .opened else .closed) ∧
    (cb.recordFailure t0).failure_count = cb.failure_count + 1 ∧
    (cb.config.failure_threshold ≤ cb.failure_count + 1 →
      (cb.recordFailure t0).last_state_change = t0) ∧
    (cb.recordSuccess t0).failure_count = 0 ∧
    (cb.recordSuccess t0).state = .closed ∧
    cbO.acquire now = (false, cbO) := by
  refine ⟨?_, ?_, ?_, ?_, ?_, ?_⟩
  · simp only [CircuitBreaker.recordFailure, h1]
    split <;> simp_all
  · simp only [CircuitBreaker.recordFailure, h1]
    split <;> simp
  · intro hth
    simp [CircuitBreaker.recordFailure, h1, hth]
  · simp [CircuitBreaker.recordSuccess, h1]
  · simp [CircuitBreaker.recordSuccess, h1]
  · simp [CircuitBreaker.acquire, CircuitBreaker.canAttempt, hO, not_le.mpr hT]

/-- C4 witness: with the default threshold 3, a CLOSED breaker with two
consecutive failures opens at the third failure recorded at time 10, and
an OPEN breaker opened at time 10 still rejects an attempt at time 50. -/
theorem C4_open_at_threshold_and_reject_until_timeout_witness :
    (CircuitBreaker.recordFailure
      { config := {}, state := .closed, failure_count := 2, success_count := 0,
        last_state_change := 0 } 10).state = .opened ∧
    (CircuitBreaker.acquire
      { config := {}, state := .opened, failure_count := 3, success_count := 0,
        last_state_change := 10 } 50).1 = false := by
  have h := C4_open_at_threshold_and_reject_until_timeout
    { config := {}, state := .closed, failure_count := 2, success_count := 0,
      last_state_change := 0 }
    { config := {}, state := .opened, failure_count := 3, success_count := 0,
      last_state_change := 10 }
    10 50 rfl rfl (by norm_num)
  refine ⟨?_, ?_⟩
  · rw [h.1]
    norm_num
  · rw [h.2.2.2.2.2]

/-- The backoff delays slept for 1-indexed attempts `a, a+1, ..., a+k-1`. -/
def retryDelays (cfg : RetryConfig) (a k : Nat) : List Rat :=
  (List.range' a k).map (fun i => calculate_delay cfg i)

theorem retryDelays_succ (cfg : RetryConfig) (a k : Nat) :
    retryDelays cfg a (k + 1) = calculate_delay cfg a :: retryDelays cfg (a + 1) k := by
  simp [retryDelays, List.range'_succ]

/-- If the attempts before `j` fail retryably and attempt `j` raises a
non-retryable exception, the retry loop stops at attempt `j` with no
further delay. -/
theorem retryFrom_stops_nonretryable (cfg : RetryConfig) (f : Nat → Except Exc PyValue)
    (e : Exc) (hnr : is_retryable e = false) :
    ∀ fuel attempt j : Nat, attempt ≤ j → j < attempt + fuel →
    (∀ i, attempt ≤ i → i < j → ∃ ei, f i = .error ei ∧ is_retryable ei = true) →
    f j = .error e →
    retryFrom cfg f attempt fuel =
      (.failed e, j - attempt + 1, retryDelays cfg attempt (j - attempt)) := by
  intro fuel
  induction fuel with
  | zero =>
      intro attempt j h1 h2 _ _
      omega
  | succ n ih =>
      intro attempt j h1 h2 hbefore hj
      rcases Nat.eq_or_lt_of_le h1 with heq | hlt
      · subst heq
        simp only [retryFrom, hj, Nat.sub_self]
        rcases Nat.eq_zero_or_pos n with hn | hn
        · subst hn
          simp [retryDelays]
        · have hnz : n ≠ 0 := by omega
          simp [hnz, hnr, retryDelays]
      · obtain ⟨ei, hei, hri⟩ := hbefore attempt (le_refl _) hlt
        have hnz : n ≠ 0 := by omega
        have hrec := ih (attempt + 1) j (by omega) (by omega)
          (fun i hi1 hi2 => hbefore i (by omega) hi2) hj
        have h3 : j - (attempt + 1) + 1 = j - attempt := by omega
        have h4 : j - attempt = (j - (attempt + 1)) + 1 := by omega
        simp [retryFrom, hei, hri, hnz, hrec, h3]
        rw [h4, retryDelays_succ]

/-- If every attempt of the window fails retryably, the retry loop
consumes the whole window, sleeping the full backoff schedule, and
surfaces the last attempt's exception. -/
theorem retryFrom_exhausts_retryable (cfg : RetryConfig) (g : Nat → Except Exc PyValue)
    (e : Exc) :
    ∀ fuel attempt : Nat, 1 ≤ fuel →
    (∀ i, attempt ≤ i → i < attempt + fuel → ∃ ei, g i = .error ei ∧ is_retryable ei = true) →
    g (attempt + fuel - 1) = .error e →
    retryFrom cfg g attempt fuel =
      (.failed e, fuel, retryDelays cfg attempt (fuel - 1)) := by
  intro fuel
  induction fuel with
  | zero =>
      intro attempt h1
      omega
  | succ n ih =>
      intro attempt _ hall hlast
      rcases Nat.eq_zero_or_pos n with hn | hn
      · subst hn
        have heq : attempt + 1 - 1 = attempt := by omega
        rw [heq] at hlast
        simp [retryFrom, hlast, retryDelays]
      · obtain ⟨ei, hei, hri⟩ := hall attempt (le_refl _) (by omega)
        have hnz : n ≠ 0 := by omega
        have hrec := ih (attempt + 1) hn
          (fun i hi1 hi2 => hall i (by omega) (by omega))
          (by have heq : attempt + 1 + n - 1 = attempt + (n + 1) - 1 := by omega
              rw [heq]; exact hlast)
        have h4 : n = (n - 1) + 1 := by omega
        simp [retryFrom, hei, hri, hnz, hrec]
        conv_rhs => rw [h4]
        rw [retryDelays_succ]

/-- C6 (confirmed): a non-retryable exception makes `execute_with_retry`
surface the failure immediately after the attempt that raised it — `j`
attempts are made and only the `j - 1` backoff delays of the earlier
retryable failures are slept, none after the raising attempt — while a
function failing retryably on every attempt consumes all `max_attempts`
attempts with the delays `min(base_delay * exponential_base^(i-1),
max_delay)` for `i = 1 .. max_attempts - 1` between them before the last
exception surfaces. -/
theorem C6_retry_schedule (rc : RetryConfig) (f g : Nat → Except Exc PyValue)
    (j : Nat) (e elast : Exc)
    (hj1 : 1 ≤ j) (hj2 : j ≤ rc.max_attempts)
    (hbefore : ∀ i, 1 ≤ i → i < j → ∃ ei, f i = .error ei ∧ is_retryable ei = true)
    (hj : f j = .error e) (hnr : is_retryable e = false)
    (hmax : 1 ≤ rc.max_attempts)
    (hg : ∀ i, 1 ≤ i → i ≤ rc.max_attempts → ∃ ei, g i = .error ei ∧ is_retryable ei = true)
    (hglast : g rc.max_attempts = .error elast) :
    executeWithRetry rc f = (.failed e, j, retryDelays rc 1 (j - 1)) ∧
    executeWithRetry rc g =
      (.failed elast, rc.max_attempts, retryDelays rc 1 (rc.max_attempts - 1)) := by
  constructor
  · have h := retryFrom_stops_nonretryable rc f e hnr rc.max_attempts 1 j hj1 (by omega)
      (fun i hi1 hi2 => hbefore i hi1 hi2) hj
    rw [executeWithRetry, h]
    have heq : j - 1 + 1 = j := by omega
    rw [heq]
  · have h := retryFrom_exhausts_retryable rc g elast rc.max_attempts 1 hmax
      (fun i hi1 hi2 => hg i hi1 (by omega))
      (by have heq : 1 + rc.max_attempts - 1 = rc.max_attempts := by omega
          rw [heq]; exact hglast)
    rw [executeWithRetry, h]

/-- C6 witness: under the default retry configuration (3 attempts, base
delay 1 s, base 2, cap 10 s), a function whose first attempt fails with a
retryable connection error and whose second raises a non-retryable
`ValueError` stops after attempt 2 having slept only the 1-second delay,
while a function that always raises `ConnectionError` consumes all three
attempts with delays 1 s and 2 s. -/
theorem C6_retry_schedule_witness :
    executeWithRetry {}
        (fun i => if i = 1 then .error { type := .connectionError, message := "refused" }
                  else .error { type := .valueError, message := "bad" }) =
      (.failed { type := .valueError, message := "bad" }, 2, retryDelays {} 1 1) ∧
    executeWithRetry {} (fun _ => .error { type := .connectionError, message := "refused" }) =
      (.failed { type := .connectionError, message := "refused" }, 3, retryDelays {} 1 2) ∧
    retryDelays {} 1 2 = [1, 2] := by
  have h := C6_retry_schedule {}
    (fun i => if i = 1 then .error { type := .connectionError, message := "refused" }
              else .error { type := .valueError, message := "bad" })
    (fun _ => .error { type := .connectionError, message := "refused" })
    2 { type := .valueError, message := "bad" } { type := .connectionError, message := "refused" }
    (by omega) (by decide)
    (by intro i h1 h2
        have heq : i = 1 := by omega
        subst heq
        exact ⟨{ type := .connectionError, message := "refused" }, rfl, by decide⟩)
    rfl (by decide) (by decide)
    (by intro i h1 h2
        exact ⟨{ type := .connectionError, message := "refused" }, rfl, by decide⟩)
    rfl
  exact ⟨h.1, h.2, by with_unfolding_all decide⟩
/-- C1 (amended): when the tool is available and the retried invocation
returns a value, `execute_tool` returns that value itself — the bare
return value of the wrapped function, not a structured success
dictionary. -/
theorem C1_success_returns_bare_value
    (m : ManagerState) (t : String) (f : Nat → Except Exc PyValue) (s : Option String)
    (t1 t2 : Rat) (v : PyValue)
    (hav : (isToolAvailable m t s t1).1 = true)
    (hok : ((executeWithRetry m.retry_config f).1).toExcept = .ok v) :
    (executeTool m t f s t1 t2).1 = v := by
  unfold executeTool
  simp only [hav]
  rw [hok]
  simp

/-- C1 witness: a fresh manager, a tool returning the string value
`"px=10"`: `execute_tool` hands back exactly that string. -/
theorem C1_success_returns_bare_value_witness :
    (executeTool (initManager "w1") "quote" (fun _ => .ok (.str "px=10")) none 0 0).1 =
      .str "px=10" :=
  C1_success_returns_bare_value (initManager "w1") "quote" (fun _ => .ok (.str "px=10"))
    none 0 0 (.str "px=10") rfl rfl

/-- C1 counterexample: on a fresh manager a successful call returns the
bare string, which is not a dictionary at all — in particular it is not a
structured result of the form `Result(status=success, data, tool_name)`
that the claim asserts. -/
theorem C1_success_not_wrapped_counterexample :
    (executeTool (initManager "cx1") "quote" (fun _ => .ok (.str "ok")) none 0 0).1 =
      .str "ok" ∧
    ((executeTool (initManager "cx1") "quote" (fun _ => .ok (.str "ok")) none 0 0).1).isDict =
      false :=
  ⟨rfl, rfl⟩

/-- C5 (amended): `execute_tool` never propagates an exception of the
wrapped function: every call returns either the `disabled` dictionary, the
wrapped function's own (bare) return value when the retried invocation
succeeds, or the `error` dictionary carrying the exception's type name and
message when it fails. -/
theorem C5_every_call_terminates_structured
    (m : ManagerState) (t : String) (f : Nat → Except Exc PyValue) (s : Option String)
    (t1 t2 : Rat) :
    (executeTool m t f s t1 t2).1 = disabledResult t ∨
    (∃ v, ((executeWithRetry m.retry_config f).1).toExcept = .ok v ∧
          (executeTool m t f s t1 t2).1 = v) ∨
    (∃ e, ((executeWithRetry m.retry_config f).1).toExcept = .error e ∧
          (executeTool m t f s t1 t2).1 = errorResult t e) := by
  cases hav : (isToolAvailable m t s t1).1 with
  | false =>
      left
      unfold executeTool
      simp [hav]
  | true =>
    cases hout : ((executeWithRetry m.retry_config f).1).toExcept with
    | ok v =>
        right; left
        refine ⟨v, rfl, ?_⟩
        unfold executeTool
        simp only [hav]
        rw [hout]
        simp
    | error e =>
        right; right
        refine ⟨e, rfl, ?_⟩
        unfold executeTool
        simp only [hav]
        rw [hout]
        simp

/-- C5 counterexample: a successful call returns the wrapped function's
bare value `42`, which is not a dictionary, hence not a *structured*
`success` result as the claim words it (`disabled` and `error` outcomes
are the only structured results). -/
theorem C5_bare_success_counterexample :
    (executeTool (initManager "cx2") "news" (fun _ => .ok (.int 42)) none 0 0).1 = .int 42 ∧
    ((executeTool (initManager "cx2") "news" (fun _ => .ok (.int 42)) none 0 0).1).isDict =
      false :=
  ⟨rfl, rfl⟩

theorem serOf_toolStateOfSer (x : SerializedToolState) :
    serOfToolState (toolStateOfSer x) = x := rfl

/-- C8 (confirmed): `from_dict` applied to the output of `to_dict` yields
a manager with identical configuration (circuit-breaker config, retry
config, default server concurrency), identical per-tool counters and
timestamps and disabled-tool set — so `to_dict` of the reconstruction
equals `to_dict` of the original — while the reconstructed manager's
semaphore map and circuit-breaker map start empty (all runtime
synchronization state is fresh). -/
theorem C8_serialization_roundtrip (m : ManagerState) :
    toDict (fromDict (toDict m)) = toDict m ∧
    (fromDict (toDict m)).circuit_breakers = [] ∧
    (fromDict (toDict m)).server_semaphores = [] ∧
    (fromDict (toDict m)).retry_config = m.retry_config ∧
    (fromDict (toDict m)).circuit_config = m.circuit_config ∧
    (fromDict (toDict m)).default_server_concurrency = m.default_server_concurrency ∧
    (fromDict (toDict m)).failed_tools = m.failed_tools ∧
    (fromDict (toDict m)).task_id = m.task_id := by
  refine ⟨?_, rfl, rfl, rfl, rfl, rfl, rfl, rfl⟩
  unfold toDict fromDict initManager
  simp [List.map_map, Function.comp_def, serOf_toolStateOfSer]

theorem alistGet_alistSet_ne {β : Type} (l : List (String × β)) (a b : String) (v : β)
    (h : a ≠ b) : alistGet (alistSet l a v) b = alistGet l b := by
  induction l with
  | nil => simp [alistSet, alistGet, h]
  | cons p rest ih =>
      obtain ⟨k1, v1⟩ := p
      by_cases hk : k1 = a
      · subst hk
        simp [alistSet, alistGet, h]
      · by_cases hk2 : k1 = b <;> simp [alistSet, alistGet, hk, hk2, ih, Ne.symm h]

theorem getTaskMcpManager_none (r : Registry) (tid : String)
    (h : alistGet r tid = none) :
    getTaskMcpManager r tid = (initManager tid, alistSet r tid (initManager tid)) := by
  unfold getTaskMcpManager
  rw [h]

/-- C7 (confirmed): managers of distinct task ids share no resilience
state: whatever is done to task `a`'s manager (any update whatsoever,
e.g. driving a tool to `disabled`), fetching task `b`'s manager afterwards
yields a pristine manager in which every tool key has failure count 0, a
CLOSED circuit and is absent from the disabled set. -/
theorem C7_task_isolation (r : Registry) (a b tool : String) (s : Option String)
    (now : Rat) (upd : ManagerState → ManagerState)
    (hab : a ≠ b) (hb : alistGet r b = none) :
    (getTaskMcpManager
        (registrySet (getTaskMcpManager r a).2 a (upd (getTaskMcpManager r a).1)) b).1 =
      initManager b ∧
    (initManager b).failed_tools = [] ∧
    alistGet (initManager b).tool_states (getToolKey tool s) = none ∧
    alistGet (initManager b).circuit_breakers (getToolKey tool s) = none ∧
    ((getToolState (initManager b) (getToolKey tool s)).1).failure_count = 0 ∧
    ((getCircuitBreaker (initManager b) (getToolKey tool s) now).1).state = .closed := by
  refine ⟨?_, rfl, rfl, rfl, rfl, rfl⟩
  have h1 : alistGet ((getTaskMcpManager r a).2) b = none := by
    unfold getTaskMcpManager
    split
    · exact hb
    · rw [alistGet_alistSet_ne r a b _ hab]
      exact hb
  have h2 : alistGet
      (registrySet (getTaskMcpManager r a).2 a (upd (getTaskMcpManager r a).1)) b = none := by
    unfold registrySet
    rw [alistGet_alistSet_ne _ a b _ hab]
    exact h1
  rw [getTaskMcpManager_none _ b h2]

/-- C7 witness: an empty registry, task ids "taskA" and "taskB"; task A's
manager is updated by an `execute_tool` call on tool "X" that fails with a
non-retryable error, and task B's manager fetched afterwards is
pristine. -/
theorem C7_task_isolation_witness :
    (getTaskMcpManager
        (registrySet (getTaskMcpManager ([] : Registry) "taskA").2 "taskA"
          ((fun m => (executeTool m "X"
              (fun _ => .error { type := .valueError, message := "boom" }) none 0 0).2)
            (getTaskMcpManager ([] : Registry) "taskA").1)) "taskB").1 =
      initManager "taskB" :=
  (C7_task_isolation ([] : Registry) "taskA" "taskB" "X" none 0
    (fun m => (executeTool m "X"
        (fun _ => .error { type := .valueError, message := "boom" }) none 0 0).2)
    (by decide) rfl).1

theorem alistGet_alistSet_self {β : Type} (l : List (String × β)) (k : String) (v : β) :
    alistGet (alistSet l k v) k = some v := by
  induction l with
  | nil => simp [alistSet, alistGet]
  | cons p rest ih =>
      obtain ⟨k1, v1⟩ := p
      by_cases hk : k1 = k <;> simp [alistSet, alistGet, hk, ih]

theorem alistSet_alistSet_same {β : Type} (l : List (String × β)) (k : String) (v w : β) :
    alistSet (alistSet l k v) k w = alistSet l k w := by
  induction l with
  | nil => simp [alistSet]
  | cons p rest ih =>
      obtain ⟨k1, v1⟩ := p
      by_cases hk : k1 = k <;> simp [alistSet, hk, ih]

theorem getCircuitBreaker_none (m : ManagerState) (key : String) (now : Rat)
    (h : alistGet m.circuit_breakers key = none) :
    getCircuitBreaker m key now =
      (CircuitBreaker.init m.circuit_config now,
       { m with circuit_breakers :=
          alistSet m.circuit_breakers key (CircuitBreaker.init m.circuit_config now) }) := by
  unfold getCircuitBreaker
  rw [h]

theorem getCircuitBreaker_some (m : ManagerState) (key : String) (now : Rat)
    (cb : CircuitBreaker) (h : alistGet m.circuit_breakers key = some cb) :
    getCircuitBreaker m key now = (cb, m) := by
  unfold getCircuitBreaker
  rw [h]

theorem getToolState_none (m : ManagerState) (key : String)
    (h : alistGet m.tool_states key = none) :
    getToolState m key =
      (({} : ToolState), { m with tool_states := alistSet m.tool_states key {} }) := by
  unfold getToolState
  rw [h]

theorem getToolState_some (m : ManagerState) (key : String) (ts : ToolState)
    (h : alistGet m.tool_states key = some ts) :
    getToolState m key = (ts, m) := by
  unfold getToolState
  rw [h]

/-- C10 counterexample: on a fresh manager, `is_tool_available` for the
never-used tool "T" creates a CircuitBreaker entry but no ToolState entry
— refuting the claim's assertion that the availability query inserts both
a fresh ToolState and a CircuitBreaker. -/
theorem C10_no_toolstate_insert_counterexample :
    ((isToolAvailable (initManager "cx3") "T" none 0).2).tool_states = [] ∧
    ((isToolAvailable (initManager "cx3") "T" none 0).2).circuit_breakers =
      [("T", CircuitBreaker.init {} 0)] :=
  ⟨rfl, rfl⟩

/-- An availability check on a not-disabled key with no breaker yet
creates the breaker (CLOSED, so the attempt is allowed) and stores it. -/
theorem isToolAvailable_fresh (m : ManagerState) (t : String) (s : Option String)
    (now : Rat)
    (h1 : m.failed_tools.contains (getToolKey t s) = false)
    (h2 : alistGet m.circuit_breakers (getToolKey t s) = none) :
    isToolAvailable m t s now =
      (true, setBreaker m (getToolKey t s) (CircuitBreaker.init m.circuit_config now)) := by
  unfold isToolAvailable
  dsimp only
  rw [if_neg (by simpa using h1)]
  rw [getCircuitBreaker_none m _ now h2]
  simp [setBreaker, CircuitBreaker.acquire, CircuitBreaker.canAttempt, CircuitBreaker.init,
    alistSet_alistSet_same]

/-- An availability check on a not-disabled key whose breaker is OPEN with
the timeout elapsed performs the OPEN → HALF_OPEN transition and stores
the updated breaker. -/
theorem isToolAvailable_opened_elapsed (m2 : ManagerState) (t2 : String)
    (s2 : Option String) (now2 : Rat) (cb : CircuitBreaker)
    (h3 : m2.failed_tools.contains (getToolKey t2 s2) = false)
    (h4 : alistGet m2.circuit_breakers (getToolKey t2 s2) = some cb)
    (h5 : cb.state = .opened)
    (h6 : cb.config.timeout ≤ now2 - cb.last_state_change) :
    isToolAvailable m2 t2 s2 now2 =
      (true, setBreaker m2 (getToolKey t2 s2)
        { cb with state := .halfOpen, last_state_change := now2, success_count := 0 }) := by
  unfold isToolAvailable
  dsimp only
  rw [if_neg (by simpa using h3)]
  rw [getCircuitBreaker_some m2 _ now2 cb h4]
  dsimp only
  unfold CircuitBreaker.acquire CircuitBreaker.canAttempt
  rw [h5]
  rw [if_pos h6]

/-- C10 (amended): availability and statistics queries are not read-only.
For a key that is not disabled and has no breaker yet, `is_tool_available`
inserts a fresh CircuitBreaker into the manager (but, unlike the claim
states, no ToolState); `get_tool_statistics` inserts both a fresh
ToolState and a fresh CircuitBreaker; and on a tool whose breaker is OPEN
with its timeout elapsed, `is_tool_available` itself flips the breaker to
HALF_OPEN, resetting its half-open success counter. -/
theorem C10_query_mutates_state
    (m m2 : ManagerState) (t t2 : String) (s s2 : Option String) (now now2 : Rat)
    (cb : CircuitBreaker)
    (h1 : m.failed_tools.contains (getToolKey t s) = false)
    (h2 : alistGet m.circuit_breakers (getToolKey t s) = none)
    (h2t : alistGet m.tool_states (getToolKey t s) = none)
    (h3 : m2.failed_tools.contains (getToolKey t2 s2) = false)
    (h4 : alistGet m2.circuit_breakers (getToolKey t2 s2) = some cb)
    (h5 : cb.state = .opened)
    (h6 : cb.config.timeout ≤ now2 - cb.last_state_change) :
    alistGet ((isToolAvailable m t s now).2).circuit_breakers (getToolKey t s) =
      some (CircuitBreaker.init m.circuit_config now) ∧
    ((isToolAvailable m t s now).2).tool_states = m.tool_states ∧
    alistGet ((getToolStatistics m t s now).2).tool_states (getToolKey t s) =
      some ({} : ToolState) ∧
    alistGet ((getToolStatistics m t s now).2).circuit_breakers (getToolKey t s) =
      some (CircuitBreaker.init m.circuit_config now) ∧
    (isToolAvailable m2 t2 s2 now2).1 = true ∧
    alistGet ((isToolAvailable m2 t2 s2 now2).2).circuit_breakers (getToolKey t2 s2) =
      some { cb with state := .halfOpen, last_state_change := now2,
                     success_count := 0 } := by
  have estat2 : ((getToolStatistics m t s now).2).tool_states =
      alistSet m.tool_states (getToolKey t s) ({} : ToolState) ∧
      ((getToolStatistics m t s now).2).circuit_breakers =
      alistSet m.circuit_breakers (getToolKey t s)
        (CircuitBreaker.init m.circuit_config now) := by
    unfold getToolStatistics
    dsimp only
    rw [getToolState_none m _ h2t]
    dsimp only
    rw [getCircuitBreaker_none]
    · exact ⟨rfl, rfl⟩
    · exact h2
  refine ⟨?_, ?_, ?_, ?_, ?_, ?_⟩
  · rw [isToolAvailable_fresh m t s now h1 h2]
    exact alistGet_alistSet_self _ _ _
  · rw [isToolAvailable_fresh m t s now h1 h2]
    rfl
  · rw [estat2.1]
    exact alistGet_alistSet_self _ _ _
  · rw [estat2.2]
    exact alistGet_alistSet_self _ _ _
  · rw [isToolAvailable_opened_elapsed m2 t2 s2 now2 cb h3 h4 h5 h6]
  · rw [isToolAvailable_opened_elapsed m2 t2 s2 now2 cb h3 h4 h5 h6]
    exact alistGet_alistSet_self _ _ _

/-- C10 witness: a fresh manager queried for tool "T", and a manager whose
breaker for tool "Y" has been OPEN since time 0 with the default 60-second
timeout, queried at time 60: the availability query itself moves the "Y"
breaker to HALF_OPEN. -/
theorem C10_query_mutates_state_witness :
    (isToolAvailable
      { task_id := "w3", circuit_breakers :=
          [("Y", { config := {}, state := .opened, failure_count := 3, success_count := 0,
                   last_state_change := 0 })] } "Y" none 60).1 = true ∧
    alistGet ((isToolAvailable
      { task_id := "w3", circuit_breakers :=
          [("Y", { config := {}, state := .opened, failure_count := 3, success_count := 0,
                   last_state_change := 0 })] } "Y" none 60).2).circuit_breakers "Y" =
      some { config := {}, state := .halfOpen, failure_count := 3, success_count := 0,
             last_state_change := 60 } := by
  have h := C10_query_mutates_state (initManager "w2")
    { task_id := "w3", circuit_breakers :=
        [("Y", { config := {}, state := .opened, failure_count := 3, success_count := 0,
                 last_state_change := 0 })] }
    "T" "Y" none none 0 60
    { config := {}, state := .opened, failure_count := 3, success_count := 0,
      last_state_change := 0 }
    rfl rfl rfl rfl rfl rfl (by norm_num)
  exact ⟨h.2.2.2.2.1, h.2.2.2.2.2⟩

/-- The canonical manager state after `j ≥ 1` consecutive failing calls on
one tool key, starting from a fresh manager configured with `cc`/`rc`:
`lft` is the time of the last recorded failure and `lsc` the breaker's
last state change. -/
def driveState (cc : CircuitBreakerConfig) (rc : RetryConfig) (task t : String)
    (s : Option String) (j : Nat) (lft lsc : Rat) : ManagerState :=
  { task_id := task,
    tool_states := [(getToolKey t s,
      { failure_count := j, last_failure_time := lft, last_success_time := 0,
        circuit_state := .closed, total_calls := j, total_failures := j })],
    circuit_breakers := [(getToolKey t s,
      { config := cc, state := if cc.failure_threshold ≤ j then .opened else .closed,
        failure_count := j, success_count := 0, last_state_change := lsc })],
    server_semaphores := (match truthyServer s with
      | some nm => [(nm, 5)]
      | none => []),
    failed_tools := if cc.failure_threshold ≤ j then [getToolKey t s] else [],
    retry_config := rc,
    circuit_config := cc,
    default_server_concurrency := 5 }

theorem driveState_avail (cc : CircuitBreakerConfig) (rc : RetryConfig) (task t : String)
    (s : Option String) (j : Nat) (lft lsc t1 : Rat)
    (hj : ¬ (cc.failure_threshold ≤ j)) :
    isToolAvailable (driveState cc rc task t s j lft lsc) t s t1 =
      (true, driveState cc rc task t s j lft lsc) := by
  unfold isToolAvailable driveState
  dsimp only
  simp [hj, alistGet, alistSet, CircuitBreaker.acquire, CircuitBreaker.canAttempt,
    setBreaker, getCircuitBreaker]

/-- One failing `execute_tool` call advances the canonical drive state:
the consecutive-failure counters increase, the breaker opens exactly when
the threshold is reached, and the key enters the disabled set exactly
then; the call itself returns the `error` dictionary. -/
theorem driveState_step (cc : CircuitBreakerConfig) (rc : RetryConfig) (task t : String)
    (s : Option String) (j : Nat) (lft lsc t1 t2 : Rat)
    (f : Nat → Except Exc PyValue) (e : Exc)
    (hj : ¬ (cc.failure_threshold ≤ j))
    (hfail : ((executeWithRetry rc f).1).toExcept = .error e) :
    executeTool (driveState cc rc task t s j lft lsc) t f s t1 t2 =
      (errorResult t e,
       driveState cc rc task t s (j + 1) t2
         (if cc.failure_threshold ≤ j + 1 then t2 else lsc)) := by
  cases hts : truthyServer s with
  | none =>
      unfold executeTool
      dsimp only
      rw [driveState_avail cc rc task t s j lft lsc t1 hj]
      rw [if_neg (by simp)]
      rw [getCircuitBreaker_some _ _ t1
        { config := cc, state := .closed, failure_count := j, success_count := 0,
          last_state_change := lsc }
        (by unfold driveState; dsimp only; simp [alistGet, hj])]
      rw [getToolState_some _ _
        { failure_count := j, last_failure_time := lft, last_success_time := 0,
          circuit_state := .closed, total_calls := j, total_failures := j }
        (by unfold driveState; dsimp only; simp [alistGet])]
      rw [show (driveState cc rc task t s j lft lsc).retry_config = rc from rfl]
      rw [hts, hfail]
      dsimp only
      by_cases hN1 : cc.failure_threshold ≤ j + 1 <;>
        simp [driveState, semAcquire, semRelease, setToolState, setBreaker, setAdd,
          CircuitBreaker.recordFailure, alistGet, alistSet, hj, hN1, hts]
  | some nm =>
      unfold executeTool
      dsimp only
      rw [driveState_avail cc rc task t s j lft lsc t1 hj]
      rw [if_neg (by simp)]
      rw [getCircuitBreaker_some _ _ t1
        { config := cc, state := .closed, failure_count := j, success_count := 0,
          last_state_change := lsc }
        (by unfold driveState; dsimp only; simp [alistGet, hj])]
      rw [getToolState_some _ _
        { failure_count := j, last_failure_time := lft, last_success_time := 0,
          circuit_state := .closed, total_calls := j, total_failures := j }
        (by unfold driveState; dsimp only; simp [alistGet])]
      rw [show (driveState cc rc task t s j lft lsc).retry_config = rc from rfl]
      rw [hts, hfail]
      dsimp only
      by_cases hN1 : cc.failure_threshold ≤ j + 1 <;>
        simp [driveState, semAcquire, semRelease, setToolState, setBreaker, setAdd,
          CircuitBreaker.recordFailure, alistGet, alistSet, hj, hN1, hts]

/-- A fresh manager whose configuration has been replaced (the way
`from_dict` installs restored configs on a newly constructed manager). -/
def freshManagerWith (task : String) (cc : CircuitBreakerConfig) (rc : RetryConfig) :
    ManagerState :=
  { initManager task with circuit_config := cc, retry_config := rc }

/-- The first failing call on a fresh manager produces the canonical drive
state for `j = 1` (the breaker is created at `tStart` and, unless the
threshold is already reached, keeps that creation stamp). -/
theorem driveState_base (cc : CircuitBreakerConfig) (rc : RetryConfig) (task t : String)
    (s : Option String) (t1 t2 : Rat) (f : Nat → Except Exc PyValue) (e : Exc)
    (hfail : ((executeWithRetry rc f).1).toExcept = .error e) :
    executeTool (freshManagerWith task cc rc) t f s t1 t2 =
      (errorResult t e,
       driveState cc rc task t s 1 t2 (if cc.failure_threshold ≤ 1 then t2 else t1)) := by
  cases hts : truthyServer s with
  | none =>
      unfold executeTool
      dsimp only
      rw [isToolAvailable_fresh (freshManagerWith task cc rc) t s t1 rfl rfl]
      rw [if_neg (by simp)]
      rw [getCircuitBreaker_some _ _ t1
        (CircuitBreaker.init (freshManagerWith task cc rc).circuit_config t1)
        (by simp [setBreaker, alistGet, alistSet, freshManagerWith, initManager])]
      rw [getToolState_none _ _ (by simp [setBreaker, freshManagerWith, initManager, alistGet])]
      rw [show (freshManagerWith task cc rc).retry_config = rc from rfl]
      rw [hts, hfail]
      dsimp only
      by_cases hN1 : cc.failure_threshold ≤ 1 <;>
        simp [driveState, freshManagerWith, initManager, CircuitBreaker.init, semAcquire,
          semRelease, setToolState, setBreaker, setAdd, CircuitBreaker.recordFailure,
          alistGet, alistSet, hN1, hts]
  | some nm =>
      unfold executeTool
      dsimp only
      rw [isToolAvailable_fresh (freshManagerWith task cc rc) t s t1 rfl rfl]
      rw [if_neg (by simp)]
      rw [getCircuitBreaker_some _ _ t1
        (CircuitBreaker.init (freshManagerWith task cc rc).circuit_config t1)
        (by simp [setBreaker, alistGet, alistSet, freshManagerWith, initManager])]
      rw [getToolState_none _ _ (by simp [setBreaker, freshManagerWith, initManager, alistGet])]
      rw [show (freshManagerWith task cc rc).retry_config = rc from rfl]
      rw [hts, hfail]
      dsimp only
      by_cases hN1 : cc.failure_threshold ≤ 1 <;>
        simp [driveState, freshManagerWith, initManager, CircuitBreaker.init, semAcquire,
          semRelease, setToolState, setBreaker, setAdd, CircuitBreaker.recordFailure,
          alistGet, alistSet, hN1, hts]

/-- A disabled key short-circuits `is_tool_available` before any breaker
or state access. -/
theorem isToolAvailable_disabled (m : ManagerState) (t : String) (s : Option String)
    (now : Rat) (h : m.failed_tools.contains (getToolKey t s) = true) :
    isToolAvailable m t s now = (false, m) := by
  unfold isToolAvailable
  dsimp only
  rw [if_pos h]

/-- A disabled key makes `execute_tool` return the `disabled` dictionary
at once, with the manager state untouched — regardless of the wrapped
function, so the function is never invoked and neither the semaphore nor
the retry machinery runs. -/
theorem executeTool_disabled (m : ManagerState) (t : String)
    (f : Nat → Except Exc PyValue) (s : Option String) (t1 t2 : Rat)
    (h : m.failed_tools.contains (getToolKey t s) = true) :
    executeTool m t f s t1 t2 = (disabledResult t, m) := by
  unfold executeTool
  dsimp only
  rw [isToolAvailable_disabled m t s t1 h]
  simp

/-- A sequence of `execute_tool` calls on one tool key, threading the
manager state; each entry carries the wrapped function's behaviour and the
two clock readings of the call. -/
def driveFails (t : String) (s : Option String) (m : ManagerState) :
    List ((Nat → Except Exc PyValue) × Rat × Rat) → ManagerState
  | [] => m
  | c :: rest => driveFails t s (executeTool m t c.1 s c.2.1 c.2.2).2 rest

/-- Consecutive failing calls keep the manager in canonical drive states,
advancing the failure counter by one per call. -/
theorem driveFails_inv (cc : CircuitBreakerConfig) (rc : RetryConfig) (task t : String)
    (s : Option String) :
    ∀ (calls : List ((Nat → Except Exc PyValue) × Rat × Rat)) (j : Nat) (lft lsc : Rat),
    j + calls.length ≤ cc.failure_threshold → 1 ≤ j →
    (∀ c ∈ calls, ∃ e, ((executeWithRetry rc c.1).1).toExcept = .error e) →
    ∃ lft2 lsc2, driveFails t s (driveState cc rc task t s j lft lsc) calls =
      driveState cc rc task t s (j + calls.length) lft2 lsc2 := by
  intro calls
  induction calls with
  | nil =>
      intro j lft lsc h1 h2 h3
      exact ⟨lft, lsc, rfl⟩
  | cons c rest ih =>
      intro j lft lsc h1 h2 h3
      obtain ⟨e, he⟩ := h3 c (by simp)
      have hlen : (c :: rest).length = rest.length + 1 := by simp
      have hj : ¬ (cc.failure_threshold ≤ j) := by
        rw [hlen] at h1
        omega
      have hstep := driveState_step cc rc task t s j lft lsc c.2.1 c.2.2 c.1 e hj he
      have hstep2 := congrArg Prod.snd hstep
      dsimp only at hstep2
      unfold driveFails
      rw [hstep2]
      have hrec := ih (j + 1) c.2.2
        (if cc.failure_threshold ≤ j + 1 then c.2.2 else lsc)
        (by rw [hlen] at h1; omega) (by omega)
        (fun d hd => h3 d (by simp [hd]))
      obtain ⟨lft2, lsc2, hrec⟩ := hrec
      refine ⟨lft2, lsc2, ?_⟩
      rw [hrec]
      have : j + 1 + rest.length = j + (c :: rest).length := by simp; omega
      rw [this]

/-- C2 (confirmed): starting from a fresh manager with failure threshold
`N ≥ 1`, after `N` consecutive `execute_tool` calls on the same tool key
whose invocations all fail, the key is in the disabled set, and any
further call on that key — whatever its wrapped function — returns the
`disabled` dictionary immediately with the manager state unchanged: the
function is never invoked and neither the semaphore nor the retry
machinery runs. -/
theorem C2_threshold_disables_and_fast_rejects
    (cc : CircuitBreakerConfig) (rc : RetryConfig) (task t : String) (s : Option String)
    (calls : List ((Nat → Except Exc PyValue) × Rat × Rat))
    (hN : 1 ≤ cc.failure_threshold)
    (hlen : calls.length = cc.failure_threshold)
    (hfail : ∀ c ∈ calls, ∃ e, ((executeWithRetry rc c.1).1).toExcept = .error e) :
    (driveFails t s (freshManagerWith task cc rc) calls).failed_tools.contains
      (getToolKey t s) = true ∧
    ∀ (g : Nat → Except Exc PyValue) (t1 t2 : Rat),
      executeTool (driveFails t s (freshManagerWith task cc rc) calls) t g s t1 t2 =
        (disabledResult t, driveFails t s (freshManagerWith task cc rc) calls) := by
  cases calls with
  | nil =>
      rw [List.length_nil] at hlen
      omega
  | cons c rest =>
      obtain ⟨e, he⟩ := hfail c (by simp)
      have hbase := driveState_base cc rc task t s c.2.1 c.2.2 c.1 e he
      have hbase2 := congrArg Prod.snd hbase
      dsimp only at hbase2
      have hdrive : driveFails t s (freshManagerWith task cc rc) (c :: rest) =
          driveFails t s (driveState cc rc task t s 1 c.2.2
            (if cc.failure_threshold ≤ 1 then c.2.2 else c.2.1)) rest := by
        unfold driveFails
        rw [hbase2]
        cases rest <;> rfl
      have hlen2 : (c :: rest).length = rest.length + 1 := by simp
      have hrec := driveFails_inv cc rc task t s rest 1 c.2.2
        (if cc.failure_threshold ≤ 1 then c.2.2 else c.2.1)
        (by rw [hlen2] at hlen; omega) (le_refl 1)
        (fun d hd => hfail d (by simp [hd]))
      obtain ⟨lft2, lsc2, hrec⟩ := hrec
      have hfinal : driveFails t s (freshManagerWith task cc rc) (c :: rest) =
          driveState cc rc task t s cc.failure_threshold lft2 lsc2 := by
        rw [hdrive, hrec]
        have : 1 + rest.length = cc.failure_threshold := by rw [hlen2] at hlen; omega
        rw [this]
      rw [hfinal]
      have hcontains : (driveState cc rc task t s cc.failure_threshold
          lft2 lsc2).failed_tools.contains (getToolKey t s) = true := by
        unfold driveState
        simp
      refine ⟨hcontains, ?_⟩
      intro g t1 t2
      exact executeTool_disabled _ t g s t1 t2 hcontains

/-- C2 witness: threshold 1, a single call failing with a non-retryable
`ValueError` disables tool "news"; a second call whose wrapped function
would succeed still returns the `disabled` dictionary with the manager
unchanged. -/
theorem C2_threshold_disables_and_fast_rejects_witness :
    (driveFails "news" none
        (freshManagerWith "wc2" { failure_threshold := 1 } {})
        [(fun _ => .error { type := .valueError, message := "boom" }, 0, 0)]).failed_tools.contains
      "news" = true ∧
    executeTool
        (driveFails "news" none
          (freshManagerWith "wc2" { failure_threshold := 1 } {})
          [(fun _ => .error { type := .valueError, message := "boom" }, 0, 0)])
        "news" (fun _ => .ok (.str "would succeed")) none 5 6 =
      (disabledResult "news",
       driveFails "news" none
          (freshManagerWith "wc2" { failure_threshold := 1 } {})
          [(fun _ => .error { type := .valueError, message := "boom" }, 0, 0)]) := by
  have h := C2_threshold_disables_and_fast_rejects { failure_threshold := 1 } {}
    "wc2" "news" none
    [(fun _ => .error { type := .valueError, message := "boom" }, 0, 0)]
    (by decide) rfl
    (by intro c hc
        simp at hc
        subst hc
        exact ⟨{ type := .valueError, message := "boom" }, rfl⟩)
  exact ⟨h.1, h.2 (fun _ => .ok (.str "would succeed")) 5 6⟩

/-- Phase of one of several concurrent `execute_tool` calls with respect
to its server's semaphore: not yet past `semaphore.acquire()`, inside the
bracketed section, or past the `finally` release. -/
inductive Phase where
  | waiting
  | running
  | finished
deriving DecidableEq

/-- Number of calls currently inside the semaphore-bracketed section. -/
def countRunning : List Phase → Nat
  | [] => 0
  | p :: rest => (if p = Phase.running then 1 else 0) + countRunning rest

/-- Interleaving semantics of `asyncio.Semaphore` as used by
`execute_tool`: a state is the phase of each concurrent call plus the
number of free permits. `acquire` needs a free permit (a waiting call
suspends when there is none, matching `await semaphore.acquire()`);
`release` is the `finally` block of a running call. -/
inductive SemStep : List Phase × Nat → List Phase × Nat → Prop
  | acquire (ph : List Phase) (sem i : Nat) (hw : ph[i]? = some Phase.waiting)
      (hs : 0 < sem) : SemStep (ph, sem) (ph.set i Phase.running, sem - 1)
  | release (ph : List Phase) (sem i : Nat) (hr : ph[i]? = some Phase.running) :
      SemStep (ph, sem) (ph.set i Phase.finished, sem + 1)

theorem countRunning_set (l : List Phase) (i : Nat) (a b : Phase)
    (h : l[i]? = some a) :
    countRunning (l.set i b) + (if a = Phase.running then 1 else 0) =
      countRunning l + (if b = Phase.running then 1 else 0) := by
  induction l generalizing i with
  | nil => simp at h
  | cons x xs ih =>
      cases i with
      | zero =>
          simp at h
          subst h
          simp only [List.set, countRunning]
          omega
      | succ n =>
          simp only [List.getElem?_cons_succ] at h
          have hrec := ih n h
          simp only [List.set, countRunning]
          omega

/-- Each semaphore step preserves the sum of in-bracket calls and free
permits. -/
theorem semStep_preserves (st st' : List Phase × Nat) (h : SemStep st st') :
    countRunning st'.1 + st'.2 = countRunning st.1 + st.2 := by
  cases h with
  | acquire ph sem i hw hs =>
      have hc := countRunning_set ph i Phase.waiting Phase.running hw
      simp at hc
      dsimp only
      omega
  | release ph sem i hr =>
      have hc := countRunning_set ph i Phase.running Phase.finished hr
      simp at hc
      dsimp only
      omega

theorem countRunning_replicate (n : Nat) :
    countRunning (List.replicate n Phase.waiting) = 0 := by
  induction n with
  | zero => rfl
  | succ k ih => simp [List.replicate, countRunning, ih]

/-- Safety invariant: from `n` waiting calls and `cap` permits, every
reachable state satisfies `running + free = cap`. -/
theorem semReaches_inv (n cap : Nat) (st : List Phase × Nat)
    (h : Relation.ReflTransGen SemStep (List.replicate n Phase.waiting, cap) st) :
    countRunning st.1 + st.2 = cap := by
  induction h with
  | refl =>
      dsimp only
      rw [countRunning_replicate]
      omega
  | tail hab hbc ih =>
      rw [semStep_preserves _ _ hbc]
      exact ih

/-- Five of six calls can be in flight at once: an explicit schedule in
which workers 0–4 acquire the five permits. -/
theorem fiveConcurrent_reachable :
    Relation.ReflTransGen SemStep (List.replicate 6 Phase.waiting, 5)
      ([Phase.running, Phase.running, Phase.running, Phase.running, Phase.running,
        Phase.waiting], 0) := by
  have h1 : SemStep (List.replicate 6 Phase.waiting, 5)
      ([Phase.running, Phase.waiting, Phase.waiting, Phase.waiting, Phase.waiting,
        Phase.waiting], 4) :=
    SemStep.acquire (List.replicate 6 Phase.waiting) 5 0 (by decide) (by decide)
  have h2 : SemStep
      ([Phase.running, Phase.waiting, Phase.waiting, Phase.waiting, Phase.waiting,
        Phase.waiting], 4)
      ([Phase.running, Phase.running, Phase.waiting, Phase.waiting, Phase.waiting,
        Phase.waiting], 3) :=
    SemStep.acquire _ 4 1 (by decide) (by decide)
  have h3 : SemStep
      ([Phase.running, Phase.running, Phase.waiting, Phase.waiting, Phase.waiting,
        Phase.waiting], 3)
      ([Phase.running, Phase.running, Phase.running, Phase.waiting, Phase.waiting,
        Phase.waiting], 2) :=
    SemStep.acquire _ 3 2 (by decide) (by decide)
  have h4 : SemStep
      ([Phase.running, Phase.running, Phase.running, Phase.waiting, Phase.waiting,
        Phase.waiting], 2)
      ([Phase.running, Phase.running, Phase.running, Phase.running, Phase.waiting,
        Phase.waiting], 1) :=
    SemStep.acquire _ 2 3 (by decide) (by decide)
  have h5 : SemStep
      ([Phase.running, Phase.running, Phase.running, Phase.running, Phase.waiting,
        Phase.waiting], 1)
      ([Phase.running, Phase.running, Phase.running, Phase.running, Phase.running,
        Phase.waiting], 0) :=
    SemStep.acquire _ 1 4 (by decide) (by decide)
  exact ((((Relation.ReflTransGen.refl.tail h1).tail h2).tail h3).tail h4).tail h5

/-- The number of available permits of server `srv`, as `execute_tool`
sees it (a missing entry means the semaphore would be created at full
capacity). -/
def semCount (m : ManagerState) (srv : String) : Nat :=
  (alistGet m.server_semaphores srv).getD m.default_server_concurrency

theorem sems_getCircuitBreaker (m : ManagerState) (k : String) (now : Rat) :
    ((getCircuitBreaker m k now).2).server_semaphores = m.server_semaphores := by
  unfold getCircuitBreaker
  split <;> rfl

theorem dflt_getCircuitBreaker (m : ManagerState) (k : String) (now : Rat) :
    ((getCircuitBreaker m k now).2).default_server_concurrency =
      m.default_server_concurrency := by
  unfold getCircuitBreaker
  split <;> rfl

theorem sems_getToolState (m : ManagerState) (k : String) :
    ((getToolState m k).2).server_semaphores = m.server_semaphores := by
  unfold getToolState
  split <;> rfl

theorem dflt_getToolState (m : ManagerState) (k : String) :
    ((getToolState m k).2).default_server_concurrency = m.default_server_concurrency := by
  unfold getToolState
  split <;> rfl

theorem sems_isToolAvailable (m : ManagerState) (t : String) (s : Option String)
    (now : Rat) :
    ((isToolAvailable m t s now).2).server_semaphores = m.server_semaphores := by
  unfold isToolAvailable
  dsimp only
  split
  · rfl
  · exact sems_getCircuitBreaker m _ now

theorem dflt_isToolAvailable (m : ManagerState) (t : String) (s : Option String)
    (now : Rat) :
    ((isToolAvailable m t s now).2).default_server_concurrency =
      m.default_server_concurrency := by
  unfold isToolAvailable
  dsimp only
  split
  · rfl
  · exact dflt_getCircuitBreaker m _ now

theorem sems_failedIf (P : Prop) [Decidable P] (m : ManagerState) (l : List String) :
    (if P then { m with failed_tools := l } else m).server_semaphores =
      m.server_semaphores := by
  split <;> rfl

theorem dflt_failedIf (P : Prop) [Decidable P] (m : ManagerState) (l : List String) :
    (if P then { m with failed_tools := l } else m).default_server_concurrency =
      m.default_server_concurrency := by
  split <;> rfl

theorem dflt_semAcquire (m : ManagerState) (o : Option String) :
    (semAcquire m o).default_server_concurrency = m.default_server_concurrency := by
  cases o <;> rfl

/-- Acquiring a permit and releasing it again — with arbitrary bookkeeping
in between that leaves the semaphore map and the default capacity alone —
restores the permit count of every server, provided the acquired pool was
not empty (in the real semaphore the acquire would have suspended then
rather than proceed). -/
theorem semCount_roundtrip (mA : ManagerState) (o : Option String) (srv : String)
    (X : ManagerState)
    (hs : X.server_semaphores = (semAcquire mA o).server_semaphores)
    (hd : X.default_server_concurrency = mA.default_server_concurrency)
    (hcap : 1 ≤ semCount mA srv) :
    semCount (semRelease X o) srv = semCount mA srv := by
  cases o with
  | none =>
      unfold semRelease semCount
      rw [hs, hd]
      rfl
  | some nm =>
      unfold semRelease semCount
      dsimp only
      rw [hs, hd]
      unfold semAcquire
      dsimp only
      by_cases hsrv : nm = srv
      · subst hsrv
        rw [alistGet_alistSet_self, alistGet_alistSet_self]
        unfold semCount at hcap
        simp only [Option.getD_some]
        omega
      · rw [alistGet_alistSet_ne _ _ _ _ hsrv, alistGet_alistSet_ne _ _ _ _ hsrv]

/-- Every exit path of `execute_tool` leaves the permit count of every
server as it found it: the `finally` release balances the acquire, and the
fast-rejection path never touches the semaphore. -/
theorem executeTool_semCount (m : ManagerState) (t : String)
    (f : Nat → Except Exc PyValue) (s : Option String) (t1 t2 : Rat) (srv : String)
    (hcap : 1 ≤ semCount m srv) :
    semCount ((executeTool m t f s t1 t2).2) srv = semCount m srv := by
  have hia : semCount ((isToolAvailable m t s t1).2) srv = semCount m srv := by
    unfold semCount
    rw [sems_isToolAvailable, dflt_isToolAvailable]
  have hmid : semCount ((getToolState ((getCircuitBreaker ((isToolAvailable m t s t1).2)
      (getToolKey t s) t1).2) (getToolKey t s)).2) srv = semCount m srv := by
    unfold semCount
    rw [sems_getToolState, sems_getCircuitBreaker, sems_isToolAvailable,
        dflt_getToolState, dflt_getCircuitBreaker, dflt_isToolAvailable]
  cases hav : (isToolAvailable m t s t1).1 with
  | false =>
      unfold executeTool
      dsimp only
      rw [hav]
      rw [if_pos rfl]
      exact hia
  | true =>
      cases hout : ((executeWithRetry m.retry_config f).1).toExcept with
      | ok v =>
          unfold executeTool
          dsimp only
          rw [hav]
          rw [if_neg (by simp)]
          rw [hout]
          dsimp only
          refine Eq.trans ?_ hmid
          exact semCount_roundtrip _ (truthyServer s) srv _ rfl
            (dflt_semAcquire _ _) (by rw [hmid]; exact hcap)
      | error e =>
          unfold executeTool
          dsimp only
          rw [hav]
          rw [if_neg (by simp)]
          rw [hout]
          dsimp only
          refine Eq.trans ?_ hmid
          refine semCount_roundtrip _ (truthyServer s) srv _ ?_ ?_
            (by rw [hmid]; exact hcap)
          · rw [sems_failedIf]
            rfl
          · rw [dflt_failedIf]
            exact dflt_semAcquire _ _

/-- C9 (confirmed): with a capacity-5 limiter and six concurrent calls,
in every reachable interleaving at most 5 calls are inside the bracketed
section at once (running + free permits = 5); whenever 5 are running there
is no free permit, so a waiting call cannot take the `acquire` step (it
suspends); 5 simultaneously running calls are actually reachable, and
after one of the 5 releases its slot the waiting sixth call can acquire
it; moreover every exit path of the sequential `execute_tool` restores the
permit count of every server. -/
theorem C9_semaphore_capacity
    (st : List Phase × Nat) (i : Nat)
    (h : Relation.ReflTransGen SemStep (List.replicate 6 Phase.waiting, 5) st)
    (m : ManagerState) (t : String) (f : Nat → Except Exc PyValue) (s : Option String)
    (t1 t2 : Rat) (srv : String) (hcap : 1 ≤ semCount m srv) :
    countRunning st.1 + st.2 = 5 ∧
    countRunning st.1 ≤ 5 ∧
    (countRunning st.1 = 5 → st.1[i]? = some Phase.waiting → ¬ 0 < st.2) ∧
    Relation.ReflTransGen SemStep (List.replicate 6 Phase.waiting, 5)
      ([Phase.running, Phase.running, Phase.running, Phase.running, Phase.running,
        Phase.waiting], 0) ∧
    countRunning [Phase.running, Phase.running, Phase.running, Phase.running,
      Phase.running, Phase.waiting] = 5 ∧
    SemStep ([Phase.running, Phase.running, Phase.running, Phase.running, Phase.running,
        Phase.waiting], 0)
      ([Phase.finished, Phase.running, Phase.running, Phase.running, Phase.running,
        Phase.waiting], 1) ∧
    SemStep ([Phase.finished, Phase.running, Phase.running, Phase.running, Phase.running,
        Phase.waiting], 1)
      ([Phase.finished, Phase.running, Phase.running, Phase.running, Phase.running,
        Phase.running], 0) ∧
    semCount ((executeTool m t f s t1 t2).2) srv = semCount m srv := by
  have hinv := semReaches_inv 6 5 st h
  refine ⟨hinv, by omega, ?_, fiveConcurrent_reachable, by decide, ?_, ?_, ?_⟩
  · intro h5 _ hpos
    omega
  · exact SemStep.release _ 0 0 (by decide)
  · exact SemStep.acquire _ 1 5 (by decide) (by decide)
  · exact executeTool_semCount m t f s t1 t2 srv hcap

/-- C9 witness: the initial state of six waiting calls with 5 permits is
reachable, and one concrete `execute_tool` call on server "S" leaves the
permit count of "S" unchanged. -/
theorem C9_semaphore_capacity_witness :
    countRunning (List.replicate 6 Phase.waiting, 5).1 +
      (List.replicate 6 Phase.waiting, 5).2 = 5 ∧
    semCount ((executeTool (initManager "w9") "news" (fun _ => .ok (.str "k"))
      (some "S") 0 0).2) "S" = semCount (initManager "w9") "S" := by
  have h := C9_semaphore_capacity (List.replicate 6 Phase.waiting, 5) 0
    Relation.ReflTransGen.refl
    (initManager "w9") "news" (fun _ => .ok (.str "k")) (some "S") 0 0 "S" (by decide)
  exact ⟨h.1, h.2.2.2.2.2.2.2⟩
